import Mathlib

/-!
Shallow embedding of the note-sx server's storage/dedup/expiry subsystem
(src/app/src/v1/File.ts, src/app/src/v1/Mapper.ts, src/app/src/v1/helpers.ts,
the Cron sweeper, and the configuration from src/app/src/index.ts), together
with theorems settling the specification claims about it.

Conventions of the embedding:
- Rows of the SQLite `files` table become the structure `Row`; a NULL column
  becomes `none` (numeric columns) or `""` (text columns, matching the JS
  falsiness checks the code performs on them).
- The database is a `List Row`; `SELECT ... LIMIT 1` becomes `List.find?`,
  the list order standing in for SQLite's unspecified result order.
- The filesystem is an association list from paths to contents; the
  Cloudflare purge collaborator is an append-only log of purged URLs (per the
  spec its failures are swallowed; its code is not part of this snapshot).
- `crypto.getRandomValues` is modelled by passing the drawn bytes (or the
  resulting names) in as arguments; `crypto.subtle.digest("SHA-256", _)` (a
  platform primitive, not repository code) is an abstract argument
  `digest : String → String` standing for the hex encoding of the digest.
- Thrown `HTTPException`s and the named server errors become the `Err` type;
  each stateful operation returns its final state and an `Except Err _`.
-/

/-- Errors raised by the engine: HTTP status codes thrown as `HTTPException`,
plus the named server errors from types.ts that File.ts uses. -/
inductive Err where
  | http (status : Nat)
  | fileFailedToSave
  | fileFailedToUpload
  | fileFailedToInit
deriving DecidableEq, Repr

/-- Application configuration, from `appInstance` in src/app/src/index.ts:
`baseFolder`, `baseWebUrl`, `hashSalt`, and `folderPrefix` (the shard-prefix
length, named `shardLen` here). -/
structure Cfg where
  baseFolder : String
  baseWebUrl : String
  hashSalt : String
  shardLen : Nat
deriving DecidableEq, Repr

/-- The file-extension whitelist from File.ts (`fileExtensionWhitelist`). -/
def fileExtensionWhitelist : List String :=
  ["html", "css", "jpg", "jpeg", "png", "webp", "svg", "gif",
   "webm", "ttf", "otf", "woff", "woff2"]

/-- Paths.folderPath: shard subdirectory from the first `shardLen` characters
of the filename (empty when the configured length is 0, per JS truthiness of
`length`), under the per-extension bucket. -/
def folderPath (cfg : Cfg) (filename extension : String) : String :=
  let subdir := if cfg.shardLen ≠ 0 then "/" ++ filename.take cfg.shardLen else ""
  if extension = "html" then "notes" ++ subdir
  else if extension = "css" then "css" ++ subdir
  else "files" ++ subdir

/-- Paths.fullFilePath: the physical folder and file path of an asset. -/
def fullFilePath (cfg : Cfg) (filename extension : String) : String × String :=
  let folder := cfg.baseFolder ++ "/userfiles/" ++ folderPath cfg filename extension
  (folder, folder ++ "/" ++ filename ++ "." ++ extension)

/-- Paths.fileUrl: the raw URL of the asset under the base web URL. -/
def fileUrl (cfg : Cfg) (filename extension : String) : String :=
  cfg.baseWebUrl ++ "/" ++ folderPath cfg filename extension
    ++ "/" ++ filename ++ "." ++ extension

/-- Paths.displayUrl: the URL given to visitors; HTML files are served with no
extension and no bucket at the root of the base web URL. -/
def displayUrl (cfg : Cfg) (filename extension : String) : String :=
  if extension = "html" then cfg.baseWebUrl ++ "/" ++ filename
  else fileUrl cfg filename extension

/-- Spec-side bucket function (spec §4.2): document → notes, stylesheet → css,
everything else → files. Stated from the spec's words, to be compared with
`folderPath`, which is translated from the source. -/
def bucketSpec (extension : String) : String :=
  if extension = "html" then "notes"
  else if extension = "css" then "css"
  else "files"

/-- A row of the `files` table (schema per the queries in File.ts and the
Cron sweeper): id (primary key), users_id (owner), filename, filetype, hash,
bytes, encrypted, created, updated, expires. Timestamps are abstract numbers;
`expires` is compared against the sweep time as an integer. -/
structure Row where
  id : Option Nat
  users_id : Option Nat
  filename : String
  filetype : String
  hash : String
  bytes : Nat
  encrypted : Nat
  created : Option Nat
  updated : Option Nat
  expires : Option Int
deriving DecidableEq, Repr

/-- MapperClass.init seeds an all-null row shape (text nulls are `""`). -/
def emptyRow : Row :=
  { id := none, users_id := none, filename := "", filetype := "", hash := "",
    bytes := 0, encrypted := 0, created := none, updated := none, expires := none }

/-- MapperClass.found: `!!this.row.id`. -/
def Row.rowFound (r : Row) : Bool := r.id.isSome

/-- MapperClass.notFound: `!this.row.id`. -/
def Row.rowNotFound (r : Row) : Bool := r.id.isNone

/-- MapperClass.load with the filter `(filename, filetype)` (a SELECT with
LIMIT 1); yields the all-null shape when nothing matches. -/
def loadByNameType (db : List Row) (filename filetype : String) : Row :=
  (db.find? fun r => r.filename == filename && r.filetype == filetype).getD emptyRow

/-- MapperClass.load with the filter `(filetype, hash)`. -/
def loadByTypeHash (db : List Row) (filetype hash : String) : Row :=
  (db.find? fun r => r.filetype == filetype && r.hash == hash).getD emptyRow

/-- MapperClass.save: with an `id`, UPDATE all fields keyed by `id` (reporting
whether a row was affected); without one, INSERT and capture the generated id
(`newId` models SQLite's `lastInsertRowid`). Returns the new table contents,
the saved in-memory row, and the affected-row flag. -/
def saveRow (db : List Row) (row : Row) (newId : Nat) : List Row × Row × Bool :=
  match row.id with
  | some i =>
      if db.any fun r => r.id == some i then
        (db.map fun r => if r.id == some i then row else r, row, true)
      else (db, row, false)
  | none =>
      let inserted := { row with id := some newId }
      (db ++ [inserted], inserted, true)

/-- Mutable world state shared by the engine and the sweeper: the `files`
table, the disk (path to contents), and the log of URLs sent to the
Cloudflare purge collaborator. -/
structure FileState where
  db : List Row
  disk : List (String × String)
  purged : List String
deriving DecidableEq, Repr

instance {ε α : Type} [DecidableEq ε] [DecidableEq α] :
    DecidableEq (Except ε α) := fun x y =>
  match x, y with
  | .ok a, .ok b =>
      if h : a = b then .isTrue (by rw [h]) else .isFalse (by simp [h])
  | .error a, .error b =>
      if h : a = b then .isTrue (by rw [h]) else .isFalse (by simp [h])
  | .ok _, .error _ => .isFalse (by simp)
  | .error _, .ok _ => .isFalse (by simp)

/-- Semantics of `writeFile`: replace any prior content at the path. -/
def writeDisk (disk : List (String × String)) (path contents : String) :
    List (String × String) :=
  (disk.filter fun e => !(e.1 == path)) ++ [(path, contents)]

/-- Validation at the top of File.initFile: the posted hash must be exactly
40 lowercase-hex characters (`this.hash?.length !== 40 ||
this.hash?.match(/[^a-f0-9]/)` throws 463). -/
def validSha1 (h : String) : Bool :=
  h.length == 40 && h.data.all fun c => c.isDigit || ('a' ≤ c && c ≤ 'f')

/-- Lowercase alphanumeric characters, the class the filename check and the
base-36 identifier alphabet use. -/
def isLowerAlnumChar (c : Char) : Bool :=
  ('a' ≤ c && c ≤ 'z') || ('0' ≤ c && c ≤ '9')

/-- File.checkPostFilenameAndExtension, filename part: when a filename was
posted, strip a legacy extension suffix (`split('.')[0]`) and require the
rest to be non-empty lowercase alphanumeric, else reject 400; when none was
posted, the stored filename stays `""`. -/
def normalizePostFilename (s : Option String) : Except Err String :=
  match s with
  | none => .ok ""
  | some s0 =>
      let f := if s0.data.contains '.'
        then String.mk (s0.data.takeWhile fun c => !(c == '.'))
        else s0
      if f.data.all isLowerAlnumChar && !(f == "") then .ok f else .error (.http 400)

/-- Per-request inputs of File.saveFile that come from outside the function:
the caller's user id, the posted `template.encrypted` flag and expiration,
the clock (`now()`), SQLite's next generated row id, and whether the physical
`writeFile` succeeds. -/
structure SaveArgs where
  ownerId : Nat
  encrypted : Bool
  expiresPost : Option Int
  dateNow : Nat
  newId : Nat
  writeOk : Bool
deriving DecidableEq, Repr

/-- File.saveFile: ensure the shard folder exists (directories are not
modelled), write the bytes to the resolved physical path (a failure raises
FILE_FAILED_TO_SAVE before anything else happens), purge the display and raw
URLs from the edge cache, then upsert the index row: a fresh row is stamped
with owner, filename, filetype and creation time, and every save stamps
bytes, encrypted, expires, hash and update time; a save reporting no affected
row raises FILE_FAILED_TO_SAVE. `file` is the in-memory Mapper row
(`this.file`), whose presence is the caller's responsibility. -/
def saveFile (cfg : Cfg) (a : SaveArgs) (filename extension hash contents : String)
    (file : Row) (st : FileState) : FileState × Except Err Row :=
  let fp := fullFilePath cfg filename extension
  if !a.writeOk then (st, .error .fileFailedToSave)
  else
    let st1 : FileState :=
      { st with
        disk := writeDisk st.disk fp.2 contents,
        purged := st.purged ++
          [displayUrl cfg filename extension, fileUrl cfg filename extension] }
    let f1 :=
      if file.rowNotFound then
        { file with
          users_id := some a.ownerId, filename := filename,
          filetype := extension, created := some a.dateNow }
      else file
    let f2 :=
      { f1 with
        bytes := contents.length,
        encrypted := if a.encrypted then 1 else 0,
        expires := a.expiresPost, hash := hash, updated := some a.dateNow }
    match saveRow st1.db f2 a.newId with
    | (db2, f3, true) => ({ st1 with db := db2 }, .ok f3)
    | (db2, _, false) => ({ st1 with db := db2 }, .error .fileFailedToSave)

/-- File.upload for a generic asset (posted filetype neither html nor css,
with no posted filename): initFile validates the hash (463) and the filetype
(415), then loads by `(filetype, hash)`. On a dedup hit the filename becomes
the existing row's filename and initFile returns the success URL early — but
upload() ignores that return value and still calls saveFile with the posted
bytes. On a miss with `createIfNotExist = false` it throws 404; otherwise the
filename is freshly generated (`freshName` models the random draw). Any error
thrown by saveFile is caught by upload() and re-thrown as
FILE_FAILED_TO_UPLOAD; the final result is the display URL. -/
def uploadGeneric (cfg : Cfg) (a : SaveArgs) (extension hash : String)
    (createIfNotExist : Bool) (freshName contents : String) (st : FileState) :
    FileState × Except Err String :=
  if !(validSha1 hash) then (st, .error (.http 463))
  else if !(fileExtensionWhitelist.contains extension) then (st, .error (.http 415))
  else
    let file := loadByTypeHash st.db extension hash
    if file.rowFound then
      match saveFile cfg a file.filename extension hash contents file st with
      | (st2, .ok _) => (st2, .ok (displayUrl cfg file.filename extension))
      | (st2, .error _) => (st2, .error .fileFailedToUpload)
    else if !createIfNotExist then (st, .error (.http 404))
    else
      match saveFile cfg a freshName extension hash contents emptyRow st with
      | (st2, .ok _) => (st2, .ok (displayUrl cfg freshName extension))
      | (st2, .error _) => (st2, .error .fileFailedToUpload)

/-- File.initFile, HTML branch: after the hash (463) and filename/extension
(415/400) checks, choose the starting name (the posted one, else a fresh
random one when creation is allowed, else 400); load `(filename, "html")`;
if the row is found but owned by someone else, regenerate when creation is
allowed, else 403; if the posted name matched nothing, likewise regenerate or
403; finally reload the settled name and throw 403 if it is still owned by a
different user. `rands` supplies the successive outputs of the random
identifier generator. Returns the settled filename and the loaded row; the
database is read, never written. -/
def initFileHtml (createIfNotExist : Bool) (postName : Option String)
    (hash : String) (uid : Nat) (rands : List String) (db : List Row) :
    Except Err (String × Row) :=
  if !(validSha1 hash) then .error (.http 463)
  else
    match normalizePostFilename postName with
    | .error e => .error e
    | .ok fn0 =>
      let userProvided := !(fn0 == "")
      let pick : Except Err (String × List String) :=
        if !userProvided && createIfNotExist then .ok (rands.headD "", rands.tail)
        else if !userProvided && !createIfNotExist then .error (.http 400)
        else .ok (fn0, rands)
      match pick with
      | .error e => .error e
      | .ok (name1, rands1) =>
        let f1 := loadByNameType db name1 "html"
        let next : Except Err String :=
          if f1.rowFound && !(f1.users_id == some uid) then
            if createIfNotExist then .ok (rands1.headD "") else .error (.http 403)
          else if userProvided && f1.rowNotFound then
            if createIfNotExist then .ok (rands1.headD "") else .error (.http 403)
          else .ok name1
        match next with
        | .error e => .error e
        | .ok name2 =>
          let f2 := loadByNameType db name2 "html"
          if f2.rowFound && !(f2.users_id == some uid) then .error (.http 403)
          else .ok (name2, f2)

/-- The helpers.ts `shortHash`: the first 32 hex characters of the SHA-256
digest, the digest itself being the abstract platform primitive. -/
def shortHashM (digest : String → String) (text : String) : String :=
  (digest text).take 32

/-- File.getCssFilename with its per-instance memo (`this.cssFilename`):
when the memo is JS-falsy (absent or empty), compute
`shortHash(hashSalt + (user uid || Date.now()))` and store it; `uid = ""`
models an absent or empty user uid, `clockNow` the value of `Date.now()` at
the call. Returns the value and the updated memo. -/
def getCssFilenameM (digest : String → String) (salt uid : String)
    (clockNow : Nat) (memo : Option String) : String × Option String :=
  if memo.getD "" == "" then
    let v := shortHashM digest
      (salt ++ (if !(uid == "") then uid else Nat.repr clockNow))
    (v, some v)
  else (memo.getD "", memo)

/-- File.initFile, CSS branch exactly as written in the source: with a
non-empty hash, look for an existing css row whose filename starts with the
deterministic name (`filename LIKE cssName || '%'`, the name being hex so
LIKE is a plain prefix match) and whose hash matches exactly, and reuse its
filename; otherwise mint `cssName` plus the first 8 characters of the hash.
The `else` arm (empty hash, bare `cssName`, legacy single-chunk mode) exists
in the source but is unreachable through initFile, whose unconditional hash
validation (see `initFileCssEntry`) rejects any request without a valid hash
before this branch runs. The chosen name is then loaded from the index. -/
def initFileCss (cssName hash : String) (db : List Row) : String × Row :=
  if !(hash == "") then
    match db.find? (fun r =>
        r.filetype == "css" && cssName.data.isPrefixOf r.filename.data && r.hash == hash) with
    | some existing => (existing.filename, loadByNameType db existing.filename "css")
    | none =>
        let nm := cssName ++ hash.take 8
        (nm, loadByNameType db nm "css")
  else (cssName, loadByNameType db cssName "css")

/-- The css resolution path as actually reachable through File.initFile: the
posted hash is first validated unconditionally (exactly 40 lowercase-hex
characters, else 463 — in particular a request with no hash is rejected),
and only then does the css branch run. Consequently the branch always sees a
non-empty hash and its legacy bare-prefix arm is dead code. -/
def initFileCssEntry (cssName hash : String) (db : List Row) :
    Except Err (String × Row) :=
  if !(validSha1 hash) then .error (.http 463)
  else .ok (initFileCss cssName hash db)

/-- File.deleteFile: only html is supported (404 otherwise); the posted
filename is validated; the row is loaded by `(filename, "html")`; only when
it exists and is owned by the caller are the physical file unlinked
(best-effort), the display URL purged, and the row deleted by exact
`(filetype, filename)` match; in every non-throwing case the response is
`success: true`. -/
def deleteFile (cfg : Cfg) (postFiletype : String) (postName : Option String)
    (uid : Nat) (st : FileState) : FileState × Except Err Bool :=
  if !(postFiletype == "html") then (st, .error (.http 404))
  else
    match normalizePostFilename postName with
    | .error e => (st, .error e)
    | .ok fn =>
      let file := loadByNameType st.db fn "html"
      if file.rowFound && file.users_id == some uid then
        let path := (fullFilePath cfg fn "html").2
        ({ db := st.db.filter fun r => !(r.filetype == "html" && r.filename == fn),
           disk := st.disk.filter fun e => !(e.1 == path),
           purged := st.purged ++ [displayUrl cfg fn "html"] }, .ok true)
      else (st, .ok true)

/-- Number.prototype.toString(36) for a single digit value 0..35. -/
def base36Digit (d : Nat) : Char :=
  if d < 10 then Char.ofNat (48 + d) else Char.ofNat (87 + d)

/-- The per-byte step of File.getHashFilename:
`Math.floor(byte * 0.140625).toString(36)`. 0.140625 is exactly 36/256 (and
`byte * 0.140625` is exact in binary floating point for every byte), so the
digit is `byte * 36 / 256` in integer arithmetic. -/
def byteToBase36 (b : Nat) : Char := base36Digit (b * 36 / 256)

/-- The `filenameLengths` table and File.filenameLength:
`filenameLengths[extension] || filenameLengths.default`, i.e. 8 for html and
20 for everything else. -/
def filenameLength (extension : String) : Nat :=
  if extension = "html" then 8 else 20

/-- File.getHashFilename: map each of the drawn random bytes to a base-36
digit and concatenate. The caller draws `filenameLength extension` bytes;
`bytes` models the output of `crypto.getRandomValues`. -/
def getHashFilename (bytes : List Nat) : String :=
  String.mk (bytes.map byteToBase36)

/-- Sweeper selection predicate: `expires IS NOT NULL AND expires <
unixepoch()` (a NULL `expires` never matches). -/
def isExpired (now : Int) (r : Row) : Bool :=
  match r.expires with
  | some e => e < now
  | none => false

/-- The body of the sweeper's per-record loop (Cron.deleteExpiredFiles):
best-effort unlink of the physical path (failure or absence is swallowed and
leaves the disk as is; `unlinkFails` names the paths whose unlink fails),
purge of the display URL, then deletion of the index row keyed by the id
captured at selection time. -/
def sweepRecord (cfg : Cfg) (unlinkFails : String → Bool) (f : Row)
    (st : FileState) : FileState :=
  let path := (fullFilePath cfg f.filename f.filetype).2
  { db := st.db.filter fun r => !(r.id == f.id),
    disk := if unlinkFails path then st.disk
            else st.disk.filter fun e => !(e.1 == path),
    purged := st.purged ++ [displayUrl cfg f.filename f.filetype] }

/-- Cron.deleteExpiredFiles, one tick: select every record whose `expires` is
non-null and in the past, then process each selected record in turn. -/
def deleteExpiredFiles (cfg : Cfg) (unlinkFails : String → Bool) (now : Int)
    (st : FileState) : FileState :=
  (st.db.filter (isExpired now)).foldl (fun s f => sweepRecord cfg unlinkFails f s) st

/-- Repeated sweeper ticks at the given sequence of times. -/
def sweepTicks (cfg : Cfg) (unlinkFails : String → Bool) (times : List Int)
    (st : FileState) : FileState :=
  times.foldl (fun s t => deleteExpiredFiles cfg unlinkFails t s) st

theorem string_append_assoc (a b c : String) : a ++ b ++ c = a ++ (b ++ c) := by
  apply String.ext
  simp [String.data_append, List.append_assoc]

theorem string_append_lit_fold {x y z : String} (h : x ++ y = z) (a c : String) :
    a ++ (x ++ (y ++ c)) = a ++ (z ++ c) := by
  rw [← string_append_assoc x y c, h]

/-- Claim C7: for every filename f and filetype t with configured shard length
P, the physical path is baseFolder/userfiles/bucket/shard/f.t where the bucket
is notes for html, css for css, files otherwise, the shard is the first P
characters of f (omitted when P = 0), and the html display URL is
baseWebUrl/f; in particular with P = 2, f = "ab1234", t = "html" the path is
baseFolder/userfiles/notes/ab/ab1234.html and the URL is baseWebUrl/ab1234. -/
theorem c7_path_resolution (cfg : Cfg) (f t : String) :
    (fullFilePath cfg f t).2 =
      cfg.baseFolder ++ "/userfiles/" ++ bucketSpec t
        ++ (if cfg.shardLen = 0 then "" else "/" ++ f.take cfg.shardLen)
        ++ "/" ++ f ++ "." ++ t
    ∧ displayUrl cfg f "html" = cfg.baseWebUrl ++ "/" ++ f
    ∧ (fullFilePath ⟨"/base", "https://w", "s", 2⟩ "ab1234" "html").2 =
        "/base" ++ "/userfiles/notes/ab/ab1234.html"
    ∧ displayUrl ⟨"/base", "https://w", "s", 2⟩ "ab1234" "html" =
        "https://w" ++ "/ab1234" := by
  refine ⟨?_, by simp [displayUrl], by decide, by decide⟩
  simp only [fullFilePath, folderPath, bucketSpec]
  by_cases h0 : cfg.shardLen = 0 <;>
    by_cases h1 : t = "html" <;>
      by_cases h2 : t = "css" <;>
        simp [h0, h1, h2, string_append_assoc] <;>
          exact string_append_lit_fold rfl _ _

theorem base36Digit_valid (d : Nat) (hd : d < 36) :
    isLowerAlnumChar (base36Digit d) = true := by
  interval_cases d <;> decide

/-- Claim C9: the random identifier generator draws n cryptographically
random bytes, n = 8 for html and n = 20 otherwise, maps each byte b to the
base-36 digit floor(b * 36/256), and concatenates; for every possible draw
the result is a string of exactly n characters, each in [a-z0-9]. -/
theorem c9_random_identifier (extension : String) (bytes : List Nat)
    (hlen : bytes.length = filenameLength extension)
    (hbound : ∀ b ∈ bytes, b < 256) :
    filenameLength "html" = 8
    ∧ (extension ≠ "html" → filenameLength extension = 20)
    ∧ (getHashFilename bytes).data = bytes.map (fun b => base36Digit (b * 36 / 256))
    ∧ (getHashFilename bytes).length = filenameLength extension
    ∧ ∀ c ∈ (getHashFilename bytes).data, isLowerAlnumChar c = true := by
  refine ⟨rfl, fun h => by simp [filenameLength, h], rfl, ?_, ?_⟩
  · simp [getHashFilename, String.length, hlen]
  · intro c hc
    simp only [getHashFilename, String.data, List.mem_map] at hc
    obtain ⟨b, hb, rfl⟩ := hc
    exact base36Digit_valid _ (by have := hbound b hb; omega)

theorem c9_random_identifier_witness :
    (getHashFilename (List.replicate 8 0)).length = filenameLength "html"
    ∧ ∀ c ∈ (getHashFilename (List.replicate 8 0)).data,
        isLowerAlnumChar c = true := by
  have h := c9_random_identifier "html" (List.replicate 8 0) (by decide)
    (by decide)
  exact ⟨h.2.2.2.1, h.2.2.2.2⟩

/-- Claim C2: if the physical file write fails, saveFile reports
FILE_FAILED_TO_SAVE and nothing else happens: the disk, the purge log, the
database and the in-memory row are left exactly as they were, because the
index upsert (set/save) only executes after a successful write. -/
theorem c2_write_failure_no_index_mutation (cfg : Cfg) (owner : Nat)
    (enc : Bool) (e : Option Int) (dnow newId : Nat)
    (filename extension hash contents : String) (file : Row) (st : FileState) :
    saveFile cfg ⟨owner, enc, e, dnow, newId, false⟩
        filename extension hash contents file st
      = (st, .error .fileFailedToSave) := rfl

/-- Claim C1 counterexample: a generic-asset upload whose (filetype, hash)
matches an existing record does return that record's public URL, but it is
not a pure short-circuit: the posted bytes are written to disk and the
existing index row is modified (upload() ignores initFile's early success
return and still calls saveFile). -/
theorem c1_counterexample :
    (uploadGeneric ⟨"/b", "https://w", "s", 0⟩ ⟨9, false, none, 99, 2, true⟩
        "png" "aaaaaaaaaaaaaaaaaaaaaaaaaaaaaaaaaaaaaaaa" true "zzz" "xyz"
        ⟨[⟨some 1, some 7, "oldname", "png",
            "aaaaaaaaaaaaaaaaaaaaaaaaaaaaaaaaaaaaaaaa", 3, 0,
            some 10, some 10, none⟩], [], []⟩).2
      = .ok (displayUrl ⟨"/b", "https://w", "s", 0⟩ "oldname" "png")
    ∧ ¬((uploadGeneric ⟨"/b", "https://w", "s", 0⟩ ⟨9, false, none, 99, 2, true⟩
        "png" "aaaaaaaaaaaaaaaaaaaaaaaaaaaaaaaaaaaaaaaa" true "zzz" "xyz"
        ⟨[⟨some 1, some 7, "oldname", "png",
            "aaaaaaaaaaaaaaaaaaaaaaaaaaaaaaaaaaaaaaaa", 3, 0,
            some 10, some 10, none⟩], [], []⟩).1.db
      = [⟨some 1, some 7, "oldname", "png",
            "aaaaaaaaaaaaaaaaaaaaaaaaaaaaaaaaaaaaaaaa", 3, 0,
            some 10, some 10, none⟩])
    ∧ ¬((uploadGeneric ⟨"/b", "https://w", "s", 0⟩ ⟨9, false, none, 99, 2, true⟩
        "png" "aaaaaaaaaaaaaaaaaaaaaaaaaaaaaaaaaaaaaaaa" true "zzz" "xyz"
        ⟨[⟨some 1, some 7, "oldname", "png",
            "aaaaaaaaaaaaaaaaaaaaaaaaaaaaaaaaaaaaaaaa", 3, 0,
            some 10, some 10, none⟩], [], []⟩).1.disk
      = []) := by
  refine ⟨by decide, by decide, by decide⟩

/-- Claim C1 amended: a generic-asset upload whose (filetype, contentHash)
matches an existing record returns that record's existing public URL and
creates no second index row (the table keeps its length, the row its id and
filename) — but the operation is not a full short-circuit: the caller's
bytes are written to the existing record's physical path, the display and
raw URLs are purged, and the existing row is updated in place (bytes,
encrypted, expires, hash and updated refreshed). -/
theorem c1_amended_dedup (cfg : Cfg) (a : SaveArgs)
    (extension h fresh contents : String) (create : Bool)
    (st : FileState) (r : Row) (i : Nat)
    (hv : validSha1 h = true)
    (hw : fileExtensionWhitelist.contains extension = true)
    (hfind : st.db.find? (fun rr => rr.filetype == extension && rr.hash == h)
      = some r)
    (hid : r.id = some i)
    (hwok : a.writeOk = true) :
    uploadGeneric cfg a extension h create fresh contents st =
      ({ db := st.db.map fun rr => if rr.id == some i then
            { r with
              bytes := contents.length,
              encrypted := if a.encrypted then 1 else 0,
              expires := a.expiresPost, hash := h, updated := some a.dateNow }
          else rr,
         disk := writeDisk st.disk (fullFilePath cfg r.filename extension).2 contents,
         purged := st.purged ++ [displayUrl cfg r.filename extension,
           fileUrl cfg r.filename extension] },
       .ok (displayUrl cfg r.filename extension))
    ∧ (st.db.map fun rr => if rr.id == some i then
            { r with
              bytes := contents.length,
              encrypted := if a.encrypted then 1 else 0,
              expires := a.expiresPost, hash := h, updated := some a.dateNow }
          else rr).length = st.db.length := by
  have hmem : r ∈ st.db := List.mem_of_find?_eq_some hfind
  have hany : (st.db.any fun rr => rr.id == some i) = true :=
    List.any_eq_true.2 ⟨r, hmem, by simp [hid]⟩
  refine ⟨?_, List.length_map _ _⟩
  simp only [uploadGeneric, hv, hw, Bool.not_true, Bool.false_eq_true,
    if_false, loadByTypeHash, hfind, Option.getD_some, Row.rowFound, hid,
    Option.isSome_some, if_true, saveFile, hwok, Row.rowNotFound,
    Option.isNone_some, Bool.false_eq_true, saveRow, hany]

theorem c1_amended_dedup_witness :
    (uploadGeneric ⟨"/b", "https://w", "s", 0⟩ ⟨9, false, none, 99, 2, true⟩
        "png" "aaaaaaaaaaaaaaaaaaaaaaaaaaaaaaaaaaaaaaaa" true "zzz" "xyz"
        ⟨[⟨some 1, some 7, "oldname", "png",
            "aaaaaaaaaaaaaaaaaaaaaaaaaaaaaaaaaaaaaaaa", 3, 0,
            some 10, some 10, none⟩], [], []⟩).2
      = .ok (displayUrl ⟨"/b", "https://w", "s", 0⟩ "oldname" "png")
    ∧ (uploadGeneric ⟨"/b", "https://w", "s", 0⟩ ⟨9, false, none, 99, 2, true⟩
        "png" "aaaaaaaaaaaaaaaaaaaaaaaaaaaaaaaaaaaaaaaa" true "zzz" "xyz"
        ⟨[⟨some 1, some 7, "oldname", "png",
            "aaaaaaaaaaaaaaaaaaaaaaaaaaaaaaaaaaaaaaaa", 3, 0,
            some 10, some 10, none⟩], [], []⟩).1.db.length = 1 := by
  have h := c1_amended_dedup ⟨"/b", "https://w", "s", 0⟩
    ⟨9, false, none, 99, 2, true⟩ "png"
    "aaaaaaaaaaaaaaaaaaaaaaaaaaaaaaaaaaaaaaaa" "zzz" "xyz" true
    ⟨[⟨some 1, some 7, "oldname", "png",
        "aaaaaaaaaaaaaaaaaaaaaaaaaaaaaaaaaaaaaaaa", 3, 0,
        some 10, some 10, none⟩], [], []⟩
    ⟨some 1, some 7, "oldname", "png",
        "aaaaaaaaaaaaaaaaaaaaaaaaaaaaaaaaaaaaaaaa", 3, 0,
        some 10, some 10, none⟩ 1
    (by decide) (by decide) (by decide) rfl rfl
  exact ⟨by rw [h.1], by rw [h.1]; exact h.2⟩

theorem normalizePostFilename_ok_ne_empty {s f : String}
    (h : normalizePostFilename (some s) = .ok f) : (f == "") = false := by
  simp only [normalizePostFilename] at h
  split at h <;> split at h <;> cases h <;>
    (rename_i hcond; simpa using ((Bool.and_eq_true _ _).mp hcond).2)

/-- Claim C6 counterexample: for the document category, a lookup with
createIfMissing = false whose supplied filename matches no record rejects
with 403 (the ownership/share-link error), not with a NotFound (404). -/
theorem c6_counterexample :
    initFileHtml false (some "abc")
        "aaaaaaaaaaaaaaaaaaaaaaaaaaaaaaaaaaaaaaaa" 5 [] []
      = .error (.http 403)
    ∧ ¬(initFileHtml false (some "abc")
        "aaaaaaaaaaaaaaaaaaaaaaaaaaaaaaaaaaaaaaaa" 5 [] []
      = .error (.http 404)) := by
  refine ⟨by decide, by decide⟩

/-- Claim C6 amended: only the generic-asset category rejects with NotFound
(404) when identity resolution runs with createIfMissing = false and nothing
matches; the document category rejects with 403 when a supplied name matches
nothing and with 400 when no name was supplied; and the stylesheet category
never rejects on a missed lookup — with no matching record it still settles
on the minted prefix+hash filename. -/
theorem c6_amended_notfound (cfg : Cfg) (a : SaveArgs)
    (extension h fresh contents nm fn : String) (uid : Nat)
    (rands : List String) (db : List Row) (st : FileState)
    (hv : validSha1 h = true)
    (hw : fileExtensionWhitelist.contains extension = true)
    (hmiss : st.db.find? (fun rr => rr.filetype == extension && rr.hash == h)
      = none)
    (hn : normalizePostFilename (some nm) = .ok fn)
    (hfind : db.find? (fun r => r.filename == fn && r.filetype == "html")
      = none) :
    uploadGeneric cfg a extension h false fresh contents st
      = (st, .error (.http 404))
    ∧ initFileHtml false (some nm) h uid rands db = .error (.http 403)
    ∧ initFileHtml false none h uid rands db = .error (.http 400)
    ∧ (h ≠ "" →
        db.find? (fun r => r.filetype == "css"
            && fn.data.isPrefixOf r.filename.data && r.hash == h) = none →
        initFileCss fn h db
          = (fn ++ h.take 8, loadByNameType db (fn ++ h.take 8) "css")) := by
  have hne := normalizePostFilename_ok_ne_empty hn
  refine ⟨?_, ?_, ?_, ?_⟩
  · simp only [uploadGeneric, hv, hw, Bool.not_true, Bool.false_eq_true,
      if_false, loadByTypeHash, hmiss, Option.getD_none, Row.rowFound,
      emptyRow, Option.isSome_none, Bool.not_false, if_true]
  · simp only [initFileHtml, hv, Bool.not_true, Bool.false_eq_true, if_false,
      hn, hne, Bool.not_false, Bool.and_false, Bool.and_true, if_true,
      loadByNameType, hfind, Option.getD_none, Row.rowFound, emptyRow,
      Option.isSome_none, Row.rowNotFound, Option.isNone_none]
    simp
  · simp [initFileHtml, hv, normalizePostFilename]
  · intro hh hcssmiss
    simp only [initFileCss, hcssmiss]
    simp [hh]

theorem c6_amended_notfound_witness :
    uploadGeneric ⟨"/b", "https://w", "s", 0⟩ ⟨9, false, none, 99, 2, true⟩
        "png" "aaaaaaaaaaaaaaaaaaaaaaaaaaaaaaaaaaaaaaaa" false "zzz" "xyz"
        ⟨[], [], []⟩
      = (⟨[], [], []⟩, .error (.http 404))
    ∧ initFileHtml false (some "abc")
        "aaaaaaaaaaaaaaaaaaaaaaaaaaaaaaaaaaaaaaaa" 5 [] []
      = .error (.http 403)
    ∧ initFileHtml false none
        "aaaaaaaaaaaaaaaaaaaaaaaaaaaaaaaaaaaaaaaa" 5 [] []
      = .error (.http 400)
    ∧ initFileCss "abc" "aaaaaaaaaaaaaaaaaaaaaaaaaaaaaaaaaaaaaaaa" []
      = ("abc" ++ ("aaaaaaaaaaaaaaaaaaaaaaaaaaaaaaaaaaaaaaaa").take 8,
         loadByNameType []
           ("abc" ++ ("aaaaaaaaaaaaaaaaaaaaaaaaaaaaaaaaaaaaaaaa").take 8)
           "css") := by
  have h := c6_amended_notfound ⟨"/b", "https://w", "s", 0⟩
    ⟨9, false, none, 99, 2, true⟩ "png"
    "aaaaaaaaaaaaaaaaaaaaaaaaaaaaaaaaaaaaaaaa" "zzz" "xyz" "abc" "abc" 5 []
    [] ⟨[], [], []⟩ (by decide) (by decide) rfl (by decide) rfl
  exact ⟨h.1, h.2.1, h.2.2.1, h.2.2.2 (by decide) rfl⟩

/-- Claim C3: for the document category with createIfMissing = true, when the
supplied filename matches an existing (filename, html) record owned by a
different user, the engine settles on the freshly generated random filename,
re-checks that settled name once more against the index, rejects with the
ownership-conflict error (403) exactly when the fresh name is again owned by
a different user, and otherwise succeeds with the fresh name — which is
necessarily different from the supplied one, so the other owner's record
(keyed by the supplied name) is never the one persisted; identity resolution
itself performs no writes. -/
theorem c3_document_ownership (h nm fn fresh : String) (uid : Nat)
    (rest : List String) (db : List Row) (r : Row)
    (hv : validSha1 h = true)
    (hn : normalizePostFilename (some nm) = .ok fn)
    (hfind : db.find? (fun rr => rr.filename == fn && rr.filetype == "html")
      = some r)
    (hid : r.id.isSome = true)
    (howner : (r.users_id == some uid) = false) :
    initFileHtml true (some nm) h uid (fresh :: rest) db
      = (if ((loadByNameType db fresh "html").rowFound
            && !((loadByNameType db fresh "html").users_id == some uid)) = true
         then .error (.http 403)
         else .ok (fresh, loadByNameType db fresh "html"))
    ∧ (∀ name2 f2,
        initFileHtml true (some nm) h uid (fresh :: rest) db = .ok (name2, f2) →
        name2 = fresh ∧ ¬(name2 = fn)) := by
  have hne := normalizePostFilename_ok_ne_empty hn
  have hmain : initFileHtml true (some nm) h uid (fresh :: rest) db
      = (if ((loadByNameType db fresh "html").rowFound
            && !((loadByNameType db fresh "html").users_id == some uid)) = true
         then .error (.http 403)
         else .ok (fresh, loadByNameType db fresh "html")) := by
    simp only [initFileHtml, hv, Bool.not_true, Bool.false_eq_true, if_false,
      hn, hne, Bool.not_false, Bool.and_true, Bool.false_and, Bool.and_false,
      if_true, loadByNameType, hfind, Option.getD_some, Row.rowFound, hid,
      Bool.true_and, howner, Row.rowNotFound, List.headD_cons]
  refine ⟨hmain, ?_⟩
  intro name2 f2 heq
  rw [hmain] at heq
  split at heq
  · cases heq
  · rename_i hcond
    injection heq with heq2
    injection heq2 with hname hf2
    subst hname
    refine ⟨rfl, ?_⟩
    intro hcontra
    subst hcontra
    rw [loadByNameType, hfind, Option.getD_some] at hcond
    rw [Row.rowFound, hid, howner] at hcond
    simp at hcond

theorem c3_document_ownership_witness :
    initFileHtml true (some "abc")
        "aaaaaaaaaaaaaaaaaaaaaaaaaaaaaaaaaaaaaaaa" 5 ["freshname"]
        [⟨some 1, some 7, "abc", "html",
          "aaaaaaaaaaaaaaaaaaaaaaaaaaaaaaaaaaaaaaaa", 3, 0,
          some 10, some 10, none⟩]
      = .ok ("freshname", emptyRow) := by
  have hh := c3_document_ownership
    "aaaaaaaaaaaaaaaaaaaaaaaaaaaaaaaaaaaaaaaa" "abc" "abc" "freshname" 5 []
    [⟨some 1, some 7, "abc", "html",
      "aaaaaaaaaaaaaaaaaaaaaaaaaaaaaaaaaaaaaaaa", 3, 0,
      some 10, some 10, none⟩]
    ⟨some 1, some 7, "abc", "html",
      "aaaaaaaaaaaaaaaaaaaaaaaaaaaaaaaaaaaaaaaa", 3, 0,
      some 10, some 10, none⟩
    (by decide) (by decide) (by decide) (by decide) (by decide)
  exact hh.1.trans (by decide)

/-- Claim C8: deleting a document whose matching (filename, html) record is
owned by a different user returns success while leaving the index, the disk
and the purge log exactly as they were. -/
theorem c8_delete_not_owned (cfg : Cfg) (postName : Option String) (uid : Nat)
    (st : FileState) (fn : String)
    (hn : normalizePostFilename postName = .ok fn)
    (hid : (loadByNameType st.db fn "html").id.isSome = true)
    (howner : ((loadByNameType st.db fn "html").users_id == some uid) = false) :
    deleteFile cfg "html" postName uid st = (st, .ok true) := by
  simp only [deleteFile, beq_self_eq_true, Bool.not_true, Bool.false_eq_true,
    if_false, hn, Row.rowFound, hid, howner, Bool.and_false, if_true]

theorem c8_delete_not_owned_witness :
    deleteFile ⟨"/b", "https://w", "s", 0⟩ "html" (some "abc") 5
        ⟨[⟨some 1, some 7, "abc", "html",
            "aaaaaaaaaaaaaaaaaaaaaaaaaaaaaaaaaaaaaaaa", 3, 0,
            some 10, some 10, none⟩],
         [("/b/userfiles/notes/abc.html", "body")],
         ["https://w/old"]⟩
      = (⟨[⟨some 1, some 7, "abc", "html",
            "aaaaaaaaaaaaaaaaaaaaaaaaaaaaaaaaaaaaaaaa", 3, 0,
            some 10, some 10, none⟩],
          [("/b/userfiles/notes/abc.html", "body")],
          ["https://w/old"]⟩, .ok true) :=
  c8_delete_not_owned ⟨"/b", "https://w", "s", 0⟩ (some "abc") 5
    ⟨[⟨some 1, some 7, "abc", "html",
        "aaaaaaaaaaaaaaaaaaaaaaaaaaaaaaaaaaaaaaaa", 3, 0,
        some 10, some 10, none⟩],
     [("/b/userfiles/notes/abc.html", "body")],
     ["https://w/old"]⟩ "abc" (by decide) (by decide) (by decide)

theorem validSha1_ne_empty {h : String} (hv : validSha1 h = true) :
    (h == "") = false := by
  cases hbe : h == ""
  · rfl
  · have he : h = "" := by simpa using hbe
    subst he
    exact absurd hv (by decide)

/-- Claim C5 counterexample: a stylesheet upload that supplies no content
hash does not settle on the bare deterministic prefix — initFile's
unconditional hash validation throws 463 before the css branch runs, so the
legacy bare-prefix arm is unreachable in the program. -/
theorem c5_counterexample :
    initFileCssEntry "deadbeef" "" [] = .error (.http 463)
    ∧ ¬(initFileCssEntry "deadbeef" "" []
        = .ok ("deadbeef", loadByNameType [] "deadbeef" "css")) := by
  refine ⟨by decide, by decide⟩

/-- Claim C5 amended: for stylesheet uploads, the deterministic name is the
first 32 hex characters of the 256-bit digest of salt || owner identity
(getCssFilename via shortHash). The posted content hash is validated
unconditionally before the stylesheet branch (exactly 40 lowercase-hex
characters), so a request with no hash — or any malformed hash — rejects
with 463 and never settles on the bare prefix (the legacy bare-prefix arm
is dead code). With the always-present valid hash, an existing css record
whose filename starts with the prefix and whose hash matches exactly is
reused; with no such record the new filename is the prefix concatenated
with the first 8 hex characters of the hash. -/
theorem c5_stylesheet_identity_amended (digest : String → String)
    (salt ident h : String) (t : Nat) (db : List Row)
    (hident : (ident == "") = false) :
    (getCssFilenameM digest salt ident t none).1 = (digest (salt ++ ident)).take 32
    ∧ (validSha1 h = true →
        ∀ r, db.find? (fun rr => rr.filetype == "css"
            && (shortHashM digest (salt ++ ident)).data.isPrefixOf rr.filename.data
            && rr.hash == h) = some r →
        initFileCssEntry (shortHashM digest (salt ++ ident)) h db
          = .ok (r.filename, loadByNameType db r.filename "css"))
    ∧ (validSha1 h = true →
        db.find? (fun rr => rr.filetype == "css"
            && (shortHashM digest (salt ++ ident)).data.isPrefixOf rr.filename.data
            && rr.hash == h) = none →
        initFileCssEntry (shortHashM digest (salt ++ ident)) h db
          = .ok (shortHashM digest (salt ++ ident) ++ h.take 8,
              loadByNameType db
                (shortHashM digest (salt ++ ident) ++ h.take 8) "css"))
    ∧ (validSha1 h = false →
        initFileCssEntry (shortHashM digest (salt ++ ident)) h db
          = .error (.http 463)) := by
  refine ⟨?_, ?_, ?_, ?_⟩
  · simp [getCssFilenameM, shortHashM, hident]
  · intro hv r hr
    have hne := validSha1_ne_empty hv
    simp only [initFileCssEntry, hv, Bool.not_true, Bool.false_eq_true,
      if_false, initFileCss, hne, Bool.not_false, if_true, hr]
  · intro hv hr
    have hne := validSha1_ne_empty hv
    simp only [initFileCssEntry, hv, Bool.not_true, Bool.false_eq_true,
      if_false, initFileCss, hne, Bool.not_false, if_true, hr]
  · intro hv
    simp only [initFileCssEntry, hv, Bool.not_false, if_true]

/-- Claim C10: getCssFilename is memoized per instance — once a non-empty
value is stored, every later call returns it unchanged; with a non-empty
user uid the value is the first 32 hex characters of digest(salt ++ uid),
independent of the clock and hence identical across instances and requests;
with an absent uid the value is derived from the clock (Date.now()), so two
instances created at different times compute different values whenever the
truncated digests of their two distinct inputs differ. -/
theorem c10_css_memo_and_identity (digest : String → String) (salt uid : String)
    (t1 t2 : Nat) :
    (∀ v1 m1, getCssFilenameM digest salt uid t1 none = (v1, m1) →
        ¬(v1 = "") → getCssFilenameM digest salt uid t2 m1 = (v1, m1))
    ∧ ((uid == "") = false →
        (getCssFilenameM digest salt uid t1 none).1
          = (digest (salt ++ uid)).take 32
        ∧ (getCssFilenameM digest salt uid t1 none).1
          = (getCssFilenameM digest salt uid t2 none).1)
    ∧ ((uid == "") = true →
        (getCssFilenameM digest salt uid t1 none).1
          = (digest (salt ++ Nat.repr t1)).take 32)
    ∧ ((uid == "") = true →
        ¬((digest (salt ++ Nat.repr t1)).take 32
          = (digest (salt ++ Nat.repr t2)).take 32) →
        ¬((getCssFilenameM digest salt uid t1 none).1
          = (getCssFilenameM digest salt uid t2 none).1)) := by
  refine ⟨?_, ?_, ?_, ?_⟩
  · intro v1 m1 heq hne
    simp only [getCssFilenameM, Option.getD_none, beq_self_eq_true, if_true]
      at heq
    rw [Prod.mk.injEq] at heq
    obtain ⟨h1, h2⟩ := heq
    rw [← h2, h1]
    have hb : (v1 == "") = false := by
      cases hbe : v1 == ""
      · rfl
      · exact absurd (by simpa using hbe) hne
    simp [getCssFilenameM, hb]
  · intro hu
    constructor
    · simp [getCssFilenameM, shortHashM, hu]
    · simp [getCssFilenameM, shortHashM, hu]
  · intro hu
    have : uid = "" := by simpa using hu
    subst this
    simp [getCssFilenameM, shortHashM]
  · intro hu hne hcontra
    have : uid = "" := by simpa using hu
    subst this
    simp only [getCssFilenameM, Option.getD_none, beq_self_eq_true, if_true,
      shortHashM] at hcontra
    simp at hcontra
    exact hne hcontra

set_option maxRecDepth 8000 in
theorem c5_stylesheet_identity_amended_witness :
    (getCssFilenameM (fun s => s) "sa" "u1" 3 none).1 = ("sa" ++ "u1").take 32
    ∧ initFileCssEntry (shortHashM (fun s => s) ("sa" ++ "u1"))
        "aaaaaaaaaaaaaaaaaaaaaaaaaaaaaaaaaaaaaaaa"
        [⟨some 1, some 7, "sau1deadbeef", "css",
          "aaaaaaaaaaaaaaaaaaaaaaaaaaaaaaaaaaaaaaaa", 3, 0,
          some 10, some 10, none⟩]
      = .ok ("sau1deadbeef",
         loadByNameType
           [⟨some 1, some 7, "sau1deadbeef", "css",
             "aaaaaaaaaaaaaaaaaaaaaaaaaaaaaaaaaaaaaaaa", 3, 0,
             some 10, some 10, none⟩] "sau1deadbeef" "css")
    ∧ initFileCssEntry (shortHashM (fun s => s) ("sa" ++ "u1"))
        "aaaaaaaaaaaaaaaaaaaaaaaaaaaaaaaaaaaaaaaa" []
      = .ok (shortHashM (fun s => s) ("sa" ++ "u1")
          ++ ("aaaaaaaaaaaaaaaaaaaaaaaaaaaaaaaaaaaaaaaa").take 8,
         loadByNameType []
           (shortHashM (fun s => s) ("sa" ++ "u1")
             ++ ("aaaaaaaaaaaaaaaaaaaaaaaaaaaaaaaaaaaaaaaa").take 8) "css")
    ∧ initFileCssEntry (shortHashM (fun s => s) ("sa" ++ "u1")) "" []
      = .error (.http 463) := by
  have h1 := c5_stylesheet_identity_amended (fun s => s) "sa" "u1"
    "aaaaaaaaaaaaaaaaaaaaaaaaaaaaaaaaaaaaaaaa" 3
    [⟨some 1, some 7, "sau1deadbeef", "css",
      "aaaaaaaaaaaaaaaaaaaaaaaaaaaaaaaaaaaaaaaa", 3, 0,
      some 10, some 10, none⟩] (by decide)
  have h2 := c5_stylesheet_identity_amended (fun s => s) "sa" "u1"
    "aaaaaaaaaaaaaaaaaaaaaaaaaaaaaaaaaaaaaaaa" 3 [] (by decide)
  have h3 := c5_stylesheet_identity_amended (fun s => s) "sa" "u1" "" 3 []
    (by decide)
  exact ⟨h1.1,
    h1.2.1 (by decide) ⟨some 1, some 7, "sau1deadbeef", "css",
      "aaaaaaaaaaaaaaaaaaaaaaaaaaaaaaaaaaaaaaaa", 3, 0,
      some 10, some 10, none⟩ (by decide),
    h2.2.2.1 (by decide) rfl,
    h3.2.2.2 (by decide)⟩

set_option maxRecDepth 8000 in
theorem c10_css_memo_and_identity_witness :
    getCssFilenameM (fun s => s) "x" "" 2 (some "x1") = ("x1", some "x1")
    ∧ (getCssFilenameM (fun s => s) "x" "" 1 none).1
        = ("x" ++ Nat.repr 1).take 32
    ∧ ¬((getCssFilenameM (fun s => s) "x" "" 1 none).1
        = (getCssFilenameM (fun s => s) "x" "" 2 none).1)
    ∧ (getCssFilenameM (fun s => s) "x" "u" 1 none).1 = ("x" ++ "u").take 32
    ∧ (getCssFilenameM (fun s => s) "x" "u" 1 none).1
        = (getCssFilenameM (fun s => s) "x" "u" 2 none).1 := by
  have ha := c10_css_memo_and_identity (fun s => s) "x" "" 1 2
  have hb := c10_css_memo_and_identity (fun s => s) "x" "u" 1 2
  exact ⟨ha.1 "x1" (some "x1") (by decide) (by decide),
    ha.2.2.1 rfl, ha.2.2.2 rfl (by decide),
    (hb.2.1 (by decide)).1, (hb.2.1 (by decide)).2⟩

theorem sweep_fold_char (cfg : Cfg) (uf : String → Bool) :
    ∀ (fs : List Row) (st : FileState),
    fs.foldl (fun s f => sweepRecord cfg uf f s) st =
      { db := st.db.filter fun r => fs.all fun f => !(r.id == f.id),
        disk := st.disk.filter fun e => fs.all fun f =>
          uf (fullFilePath cfg f.filename f.filetype).2
            || !(e.1 == (fullFilePath cfg f.filename f.filetype).2),
        purged := st.purged ++ fs.map fun f =>
          displayUrl cfg f.filename f.filetype } := by
  intro fs
  induction fs with
  | nil => intro st; simp
  | cons f fs ih =>
      intro st
      rw [List.foldl_cons, ih]
      simp only [sweepRecord, FileState.mk.injEq]
      refine ⟨?_, ?_, ?_⟩
      · rw [List.filter_filter]
        simp only [List.all_cons]
        exact List.filter_congr fun x _ => Bool.and_comm _ _
      · by_cases huf : uf (fullFilePath cfg f.filename f.filetype).2
        · simp [huf]
        · simp only [huf, if_false, Bool.false_eq_true]
          rw [List.filter_filter]
          simp only [List.all_cons, huf, Bool.false_or]
          exact List.filter_congr fun x _ => Bool.and_comm _ _
      · simp [List.append_assoc]

theorem deleteExpiredFiles_db_char (cfg : Cfg) (uf : String → Bool) (now : Int)
    (st : FileState)
    (_hids : ∀ r ∈ st.db, r.id.isSome = true)
    (hnd : (st.db.map Row.id).Nodup) :
    (deleteExpiredFiles cfg uf now st).db
      = st.db.filter fun r => !(isExpired now r) := by
  unfold deleteExpiredFiles
  rw [sweep_fold_char]
  apply List.filter_congr
  intro r hr
  by_cases hexp : isExpired now r = true
  · rw [hexp]
    apply Bool.eq_false_iff.mpr
    intro hall
    have := List.all_eq_true.mp hall r (List.mem_filter.mpr ⟨hr, hexp⟩)
    simp at this
  · have hexp' : isExpired now r = false := Bool.eq_false_iff.mpr hexp
    rw [hexp']
    apply List.all_eq_true.mpr
    intro f hf
    have hfdb := (List.mem_filter.mp hf).1
    have hfexp := (List.mem_filter.mp hf).2
    have hne : ¬(r.id = f.id) := by
      intro hEq
      have hrf : r = f := List.inj_on_of_nodup_map hnd hr hfdb hEq
      rw [hrf, hfexp] at hexp'
      cases hexp'
    simpa using hne

/-- Claim C4: on a sweeper tick at time `now`, exactly the records whose
`expires` is non-null and earlier than `now` are processed: the resulting
table is the original minus precisely those records (deletion is keyed by the
id captured at selection time; the characterization holds for every
`unlinkFails`, so a file-deletion failure on one record never prevents the
database deletions or cache purges of the rest); each processed record's
display URL is handed to the cache-purge collaborator; the physical file of a
processed record whose own unlink does not fail is gone from disk (absence
beforehand is ignored); and a record with `expires` null, or in the future at
every tick time, survives any number of ticks unchanged. Requires rows to
carry distinct non-null primary keys. -/
theorem c4_sweeper (cfg : Cfg) (uf : String → Bool) (now : Int)
    (st : FileState)
    (hids : ∀ r ∈ st.db, r.id.isSome = true)
    (hnd : (st.db.map Row.id).Nodup) :
    (deleteExpiredFiles cfg uf now st).db
        = st.db.filter (fun r => !(isExpired now r))
    ∧ (deleteExpiredFiles cfg uf now st).purged
        = st.purged ++ (st.db.filter (isExpired now)).map
            (fun f => displayUrl cfg f.filename f.filetype)
    ∧ (∀ r ∈ st.db, isExpired now r = true →
        uf (fullFilePath cfg r.filename r.filetype).2 = false →
        ∀ c, ¬(((fullFilePath cfg r.filename r.filetype).2, c)
          ∈ (deleteExpiredFiles cfg uf now st).disk))
    ∧ (∀ times, ∀ r ∈ st.db,
        (∀ t ∈ times, isExpired t r = false) →
        r ∈ (sweepTicks cfg uf times st).db) := by
  refine ⟨deleteExpiredFiles_db_char cfg uf now st hids hnd, ?_, ?_, ?_⟩
  · unfold deleteExpiredFiles
    rw [sweep_fold_char]
  · intro r hr hexp hufr c hmem
    unfold deleteExpiredFiles at hmem
    rw [sweep_fold_char] at hmem
    have hq := (List.mem_filter.mp hmem).2
    have := List.all_eq_true.mp hq r (List.mem_filter.mpr ⟨hr, hexp⟩)
    rw [hufr] at this
    simp at this
  · intro times
    induction times generalizing st with
    | nil =>
        intro r hr _
        simpa [sweepTicks] using hr
    | cons t ts ih =>
        intro r hr hnot
        have hdb1 := deleteExpiredFiles_db_char cfg uf t st hids hnd
        have hr1 : r ∈ (deleteExpiredFiles cfg uf t st).db := by
          rw [hdb1]
          exact List.mem_filter.mpr ⟨hr, by simp [hnot t (by simp)]⟩
        have hids1 : ∀ x ∈ (deleteExpiredFiles cfg uf t st).db,
            x.id.isSome = true := by
          intro x hx
          rw [hdb1] at hx
          exact hids x (List.mem_filter.mp hx).1
        have hnd1 : ((deleteExpiredFiles cfg uf t st).db.map Row.id).Nodup := by
          rw [hdb1]
          exact hnd.sublist ((List.filter_sublist _).map _)
        have hstep : sweepTicks cfg uf (t :: ts) st
            = sweepTicks cfg uf ts (deleteExpiredFiles cfg uf t st) := rfl
        rw [hstep]
        exact ih _ hids1 hnd1 r hr1
          (fun t' ht' => hnot t' (List.mem_cons_of_mem _ ht'))

theorem c4_sweeper_witness :
    (deleteExpiredFiles ⟨"/b", "https://w", "s", 0⟩ (fun _ => false) 100
        ⟨[⟨some 1, some 7, "exp", "png", "h", 3, 0, some 10, some 10, some 50⟩,
          ⟨some 2, some 7, "keep", "html", "h", 3, 0, some 10, some 10, none⟩],
         [("/b/userfiles/files/exp.png", "x")], []⟩).db
      = [⟨some 2, some 7, "keep", "html", "h", 3, 0, some 10, some 10, none⟩]
    ∧ (deleteExpiredFiles ⟨"/b", "https://w", "s", 0⟩ (fun _ => false) 100
        ⟨[⟨some 1, some 7, "exp", "png", "h", 3, 0, some 10, some 10, some 50⟩,
          ⟨some 2, some 7, "keep", "html", "h", 3, 0, some 10, some 10, none⟩],
         [("/b/userfiles/files/exp.png", "x")], []⟩).purged
      = ["https://w/files/exp.png"]
    ∧ ¬(("/b/userfiles/files/exp.png", "x")
        ∈ (deleteExpiredFiles ⟨"/b", "https://w", "s", 0⟩ (fun _ => false) 100
        ⟨[⟨some 1, some 7, "exp", "png", "h", 3, 0, some 10, some 10, some 50⟩,
          ⟨some 2, some 7, "keep", "html", "h", 3, 0, some 10, some 10, none⟩],
         [("/b/userfiles/files/exp.png", "x")], []⟩).disk)
    ∧ ⟨some 2, some 7, "keep", "html", "h", 3, 0, some 10, some 10, none⟩
        ∈ (sweepTicks ⟨"/b", "https://w", "s", 0⟩ (fun _ => false) [50, 100]
        ⟨[⟨some 1, some 7, "exp", "png", "h", 3, 0, some 10, some 10, some 50⟩,
          ⟨some 2, some 7, "keep", "html", "h", 3, 0, some 10, some 10, none⟩],
         [("/b/userfiles/files/exp.png", "x")], []⟩).db := by
  have W := c4_sweeper ⟨"/b", "https://w", "s", 0⟩ (fun _ => false) 100
    ⟨[⟨some 1, some 7, "exp", "png", "h", 3, 0, some 10, some 10, some 50⟩,
      ⟨some 2, some 7, "keep", "html", "h", 3, 0, some 10, some 10, none⟩],
     [("/b/userfiles/files/exp.png", "x")], []⟩
    (by decide) (by decide)
  refine ⟨W.1.trans (by decide), W.2.1.trans (by decide), ?_, ?_⟩
  · exact W.2.2.1
      ⟨some 1, some 7, "exp", "png", "h", 3, 0, some 10, some 10, some 50⟩
      (by decide) (by decide) rfl "x"
  · exact W.2.2.2 [50, 100]
      ⟨some 2, some 7, "keep", "html", "h", 3, 0, some 10, some 10, none⟩
      (by decide) (by decide)
